import Mathlib

/-!
Verification of the `sec_filing_bot` repository: a shallow embedding in Lean 4
of the event classifier (`event_classifier.py`), the evidence snippet extractor
(`evidence_snippets.py`) and the Telegram feedback processor
(`scripts/process_telegram_feedback.py`), together with theorems settling the
specification claims about them.

Modelling conventions:
* Python `str` is modelled by Lean `String` (or `List Char` where index
  arithmetic matters); all strings occurring in the program are ASCII, so
  byte length and character length coincide.
* Python `float` confidences are modelled by `Rat`.  All confidences produced
  by the program lie in {0.2, 0.3, 0.5, 0.7, 0.9, 1.0}; on these values every
  comparison performed by the program gives the same result for IEEE doubles
  and for rationals, so the rational model is faithful.
* `re.search(pat, text, re.IGNORECASE)` is abstracted by an arbitrary
  predicate `m : String → String → Bool` (pattern, text ↦ matched); a pattern
  that fails to compile is modelled by `m pat text = false`, exactly the
  effect of the `except re.error: continue` in `_count_regex_hits`.
* I/O (reading the feedback log, the offset file, Telegram HTTP calls) is made
  explicit: `process_updates` takes the persisted state and the fetched batch
  as arguments and returns the new state together with the lists of
  acknowledgements and outbound messages it would send.
-/

namespace SecFilingBot

/-! ### Python string helpers -/

/-- Python `str.strip()` on a list of characters: drop whitespace from both
ends. -/
def stripWS (s : List Char) : List Char :=
  ((s.dropWhile Char.isWhitespace).reverse.dropWhile Char.isWhitespace).reverse

/-- Python `str.strip()` on a `String`. -/
def pyStrip (s : String) : String :=
  String.mk (stripWS s.data)

/-- Python `str.split()` with no separator: split on runs of whitespace,
producing no empty words.  `acc` holds the current word, reversed. -/
def pySplitAux : List Char → List Char → List (List Char)
  | [], acc => if acc.isEmpty then [] else [acc.reverse]
  | c :: rest, acc =>
      if c.isWhitespace then
        if acc.isEmpty then pySplitAux rest [] else acc.reverse :: pySplitAux rest []
      else pySplitAux rest (c :: acc)

/-- Python `str.split()` (whitespace mode). -/
def pySplit (s : List Char) : List (List Char) :=
  pySplitAux s []

/-- Python `" ".join(s.split())`: collapse whitespace runs to single spaces
and strip the ends. -/
def normWS (s : List Char) : List Char :=
  List.intercalate [' '] (pySplit s)

/-- Python `hay.find(pat)` (first index of a substring occurrence), returning
`none` where Python returns `-1`. -/
def findSub (pat : List Char) : List Char → Option Nat
  | [] => if List.isPrefixOf pat [] then some 0 else none
  | c :: t =>
    if List.isPrefixOf pat (c :: t) then some 0
    else (findSub pat t).map (· + 1)

/-- Python slice `s[:j]` for a possibly negative `j`. -/
def pyTake (s : List Char) (j : Int) : List Char :=
  if 0 ≤ j then s.take j.toNat else s.take (s.length - (-j).toNat)

/-- Python `s.split(sep, maxsplit)`: split on `sep` at most `k` times.
`acc` holds the current field, reversed. -/
def splitSepMaxAux (sep : Char) : List Char → Nat → List Char → List (List Char)
  | [], _, acc => [acc.reverse]
  | c :: rest, k, acc =>
      match k with
      | 0 => splitSepMaxAux sep rest 0 (c :: acc)
      | k' + 1 =>
          if c = sep then acc.reverse :: splitSepMaxAux sep rest k' []
          else splitSepMaxAux sep rest (k' + 1) (c :: acc)

/-- Python `s.split(sep, maxsplit)` on `String`s. -/
def splitSepMax (sep : Char) (s : String) (k : Nat) : List String :=
  (splitSepMaxAux sep s.data k []).map String.mk

/-! ### `event_classifier.py`: event-type constants and rules -/

def PREF_CALL : String := "PREF_CALL"
def PREF_PARTIAL_CALL : String := "PREF_PARTIAL_CALL"
def PREF_NEW_ISSUE : String := "PREF_NEW_ISSUE"
def DIV_SUSPENSION : String := "DIV_SUSPENSION"
def OFFERING : String := "OFFERING"
def RIGHTS_OFFERING : String := "RIGHTS_OFFERING"
def TENDER_OFFER : String := "TENDER_OFFER"
def EXCHANGE_OFFER : String := "EXCHANGE_OFFER"
def CEF_DISTRIBUTION_CHANGE : String := "CEF_DISTRIBUTION_CHANGE"
def LIQUIDATION_TERMINATION : String := "LIQUIDATION_TERMINATION"
def EARNINGS : String := "EARNINGS"
def GENERIC_NEWS : String := "GENERIC_NEWS"
def NOT_RELEVANT : String := "NOT_RELEVANT"

/-- All classified event types (for the feedback "Wrong" keyboard); excludes
`NOT_RELEVANT`, which is a feedback sentinel only. -/
def ALL_EVENT_TYPES : List String :=
  [PREF_CALL, PREF_PARTIAL_CALL, PREF_NEW_ISSUE, DIV_SUSPENSION, OFFERING,
   RIGHTS_OFFERING, TENDER_OFFER, EXCHANGE_OFFER, CEF_DISTRIBUTION_CHANGE,
   LIQUIDATION_TERMINATION, EARNINGS, GENERIC_NEWS]

structure EventRule where
  event_type : String
  patterns : List String
  base : Rat := 3/10
  per_hit : Rat := 1/5
  cap : Rat := 1
  priority : Int := 0
deriving DecidableEq

/-- The static rule table `RULES` of `event_classifier.py` (regex sources kept
verbatim as pattern strings). -/
def RULES : List EventRule := [
  { event_type := TENDER_OFFER, priority := 100,
    patterns := ["\\btender offer\\b", "\\boffer to purchase\\b",
      "\\bcommencement of a tender offer\\b", "\\bissuer tender offer\\b",
      "\\bwithdrawal rights\\b", "\\bexpiration date\\b.*\\btender\\b"] },
  { event_type := EXCHANGE_OFFER, priority := 95,
    patterns := ["\\boffer(?:s|ing)? to exchange\\b", "\\bexchange offer\\b",
      "\\bsolicitation of consents\\b", "\\bconsent solicitation\\b",
      "\\bnew notes?\\b.*\\bexchange\\b"] },
  { event_type := PREF_PARTIAL_CALL, priority := 90,
    patterns := ["\\bpartial redemption\\b", "\\bpartially redeem\\b",
      "\\bwill redeem\\b.*\\ba portion of\\b",
      "\\baggregate liquidation preference\\b.*\\bof\\b.*\\bwill be redeemed\\b"] },
  { event_type := PREF_CALL, priority := 80,
    patterns := ["\\bnotice of redemption\\b", "\\bcalled for redemption\\b",
      "\\bwill redeem\\b", "\\bredemption date\\b", "\\boptional redemption\\b",
      "\\bmandatory redemption\\b", "\\bredemption price\\b",
      "\\bredemption right\\b",
      "\\baggregate liquidation preference\\b.*\\bredemption\\b"] },
  { event_type := DIV_SUSPENSION, priority := 70,
    patterns := ["\\bsuspend(?:ed|s|ing)?\\b.*\\bdividend",
      "\\bsuspension of (?:the )?dividend", "\\bom(?:it|itted)\\b.*\\bdividend",
      "\\bwill not declare\\b.*\\bdividend",
      "\\bcease\\b.*\\bpay(?:ing|ment)\\b.*\\bdividend",
      "\\bdividends?\\b.*\\bin arrears\\b"] },
  { event_type := RIGHTS_OFFERING, priority := 85,
    patterns := ["\\bright(s)? offering\\b", "\\bsubscription rights\\b",
      "\\btransferable rights\\b", "\\bnon-?transferable rights\\b",
      "\\bbasic subscription privilege\\b",
      "\\bover-?subscription privilege\\b", "\\bsubscription price\\b"] },
  { event_type := OFFERING, priority := 60,
    patterns := ["\\bprospectus supplement\\b",
      "\\bunderwritten (?:public )?offering\\b",
      "\\bat-the-market\\b|\\batm offering\\b|\\bsales agreement\\b",
      "\\bshelf (?:registration|offering)\\b", "\\boffering of\\b",
      "\\bunderwriting agreement\\b", "\\bplacement agent\\b",
      "\\bregistered direct offering\\b"] },
  { event_type := PREF_NEW_ISSUE, priority := 65,
    patterns := ["\\bdepositary shares\\b", "\\bpreferred stock\\b",
      "\\bseries [a-z0-9]+\\b.*\\bpreferred\\b",
      "\\bfixed[- ]to[- ]floating\\b.*\\bpreferred\\b",
      "\\bliquidation preference\\b.*\\b\\$?\\d+\\b",
      "\\brate reset\\b.*\\bpreferred\\b"] },
  { event_type := CEF_DISTRIBUTION_CHANGE, priority := 75,
    patterns := ["\\bmanaged distribution\\b", "\\bdistribution policy\\b",
      "\\bdistribution rate\\b",
      "\\bmonthly distribution\\b|\\bquarterly distribution\\b",
      "\\bcut\\b.*\\bdistribution\\b",
      "\\breduc(?:e|ed|es|ing)\\b.*\\bdistribution\\b",
      "\\bdistribution will\\b.*\\b(?:decrease|increase|change)\\b",
      "\\bsuspend(?:ed|s|ing)?\\b.*\\bdistribution\\b"] },
  { event_type := LIQUIDATION_TERMINATION, priority := 78,
    patterns := ["\\bliquidation\\b", "\\btermination date\\b",
      "\\bwind(?:ing)?[- ]up\\b", "\\bplan of liquidation\\b",
      "\\bdissolution\\b", "\\bconvert(?:ed|s|ing)\\b.*\\bto an open-?end\\b"] },
  { event_type := EARNINGS, priority := 72,
    patterns := ["\\bearnings release\\b", "\\bquarterly earnings\\b",
      "\\bannual earnings\\b", "\\bearnings call\\b",
      "\\bconference call\\b.*\\bearnings\\b",
      "\\bannouncement of (?:quarterly |annual )?earnings\\b",
      "\\bresults (?:for|of) the (?:quarter|fiscal|period)\\b",
      "\\bearnings (?:for|report|results)\\b",
      "\\bnet income\\b.*\\bquarter\\b", "\\bfinancial results\\b"] }]

/-! ### `event_classifier.py`: classification -/

/-- Model of `_count_regex_hits`: how many of the rule's patterns match at least once
(each pattern counted at most once).  `m` abstracts `re.search` with
`re.IGNORECASE`; a pattern whose compilation fails is a pattern with
`m pat text = false`. -/
def countRegexHits (m : String → String → Bool) (text : String)
    (patterns : List String) : Nat :=
  if text.isEmpty then 0
  else (patterns.filter (fun pat => m pat text)).length

/-- The candidate confidence of a rule with `hits` pattern hits:
`min(rule.cap, rule.base + rule.per_hit * max(0, hits - 1))`. -/
def candConf (rule : EventRule) (hits : Nat) : Rat :=
  min rule.cap (rule.base + rule.per_hit * ((max 0 ((hits : Int) - 1) : Int) : Rat))

/-- One iteration of the `for rule in RULES` loop of `classify_event`.
The running best is `(best_type, best_conf, best_pri)`. -/
def classifyStep (m : String → String → Bool) (text : String)
    (best : String × Rat × Int) (rule : EventRule) : String × Rat × Int :=
  let hits := countRegexHits m text rule.patterns
  if hits = 0 then best
  else
    let conf := candConf rule hits
    if best.2.1 < conf ∨ (conf = best.2.1 ∧ best.2.2 < rule.priority) then
      (rule.event_type, conf, rule.priority)
    else best

/-- Model of `classify_event(plain_text)`: returns `(event_type, confidence)`. -/
def classify_event (m : String → String → Bool) (plain_text : String) :
    String × Rat :=
  if (pyStrip plain_text).isEmpty then (GENERIC_NEWS, 1/5)
  else
    let b := RULES.foldl (classifyStep m plain_text) (GENERIC_NEWS, 1/5, -1)
    (b.1, b.2.1)

/-- Model of `event_type_display_name(event_type)`.  The Python dict lookup
on a literal dict with distinct keys is modelled as an if-chain over the keys;
the default of `labels.get(event_type, event_type or "Filing")` returns the
tag itself, or `"Filing"` when the tag is empty (falsy). -/
def event_type_display_name (event_type : String) : String :=
  if event_type = PREF_CALL then "Redemption / Call"
  else if event_type = PREF_PARTIAL_CALL then "Partial call / Redemption"
  else if event_type = PREF_NEW_ISSUE then "New preferred issue / terms"
  else if event_type = DIV_SUSPENSION then "Dividend suspension / omission"
  else if event_type = OFFERING then "Offering / ATM"
  else if event_type = RIGHTS_OFFERING then "Rights offering"
  else if event_type = TENDER_OFFER then "Tender offer / repurchase"
  else if event_type = EXCHANGE_OFFER then "Exchange offer / consent"
  else if event_type = CEF_DISTRIBUTION_CHANGE then "CEF distribution change"
  else if event_type = LIQUIDATION_TERMINATION then "Liquidation / Termination"
  else if event_type = EARNINGS then "Earnings / earnings call"
  else if event_type = GENERIC_NEWS then "Filing"
  else if event_type.isEmpty then "Filing" else event_type

/-! ### `evidence_snippets.py` -/

/-- Truncation at the end of the phrase loop of `extract_snippets`:
`if len(snip) > max_snippet_len: snip = snip[: max_snippet_len - 3] + "..."`.
Note that `max_snippet_len - 3` is a Python `int` and may be negative, in
which case the slice drops characters from the end. -/
def snippetTruncate (max_snippet_len : Nat) (snip : List Char) : List Char :=
  if max_snippet_len < snip.length then
    pyTake snip ((max_snippet_len : Int) - 3) ++ "...".data
  else snip

/-- Loop state of `extract_snippets`: the `seen_starts` set (as a list) and
the snippets collected so far. -/
structure SnipState where
  seen_starts : List Nat
  snippets : List (List Char)

/-- The snippet computed by one loop iteration from a phrase occurrence at
offset `idx` (phrase length `plen`): slice a window out of the normalized
text (`start = max(0, idx - window_chars)` is the `Nat` subtraction,
`stop = min(len(normalized), idx + plen + window_chars)`), strip it,
re-normalize whitespace and truncate. -/
def snippetOf (normalized : List Char) (window_chars max_snippet_len : Nat)
    (idx plen : Nat) : List Char :=
  let start := idx - window_chars
  let stop := min normalized.length (idx + plen + window_chars)
  snippetTruncate max_snippet_len
    (normWS (stripWS ((normalized.drop start).take (stop - start))))

/-- One iteration of the `for phrase in phrases` loop of `extract_snippets`.
The Python `break` once `len(snippets) >= max_snippets` is modelled by making
every later iteration the identity. -/
def snippetStep (lower_norm normalized : List Char)
    (window_chars max_snippets max_snippet_len : Nat)
    (st : SnipState) (phrase : List Char) : SnipState :=
  if max_snippets ≤ st.snippets.length then st
  else
    let p_lower := phrase.map Char.toLower
    match findSub p_lower lower_norm with
    | none => st
    | some idx =>
      if idx ∈ st.seen_starts then st
      else
        let seen := idx :: st.seen_starts
        let snip := snippetOf normalized window_chars max_snippet_len idx phrase.length
        if snip.isEmpty then { seen_starts := seen, snippets := st.snippets }
        else if snip ∈ st.snippets then { seen_starts := seen, snippets := st.snippets }
        else { seen_starts := seen, snippets := st.snippets ++ [snip] }

/-- Model of `extract_snippets(plain_text, phrases, window_chars,
max_snippets, max_snippet_len)` (the Python defaults are 250, 3, 200). -/
def extract_snippets (plain_text : List Char) (phrases : List (List Char))
    (window_chars max_snippets max_snippet_len : Nat) : List (List Char) :=
  if plain_text.isEmpty ∨ phrases.isEmpty then []
  else
    let lower := plain_text.map Char.toLower
    let normalized := normWS plain_text
    let lower_norm := normWS lower
    (phrases.foldl
      (snippetStep lower_norm normalized window_chars max_snippets max_snippet_len)
      { seen_starts := [], snippets := [] }).snippets.take max_snippets

/-- Instrumented loop state: each collected snippet is paired with the
starting offset (in the normalized text) of the phrase occurrence that
produced it. -/
structure SnipStateA where
  seen_starts : List Nat
  snippets : List (Nat × List Char)

/-- Instrumented version of `snippetStep`, identical except that it records
the starting offset alongside each snippet. -/
def snippetStepA (lower_norm normalized : List Char)
    (window_chars max_snippets max_snippet_len : Nat)
    (st : SnipStateA) (phrase : List Char) : SnipStateA :=
  if max_snippets ≤ st.snippets.length then st
  else
    let p_lower := phrase.map Char.toLower
    match findSub p_lower lower_norm with
    | none => st
    | some idx =>
      if idx ∈ st.seen_starts then st
      else
        let seen := idx :: st.seen_starts
        let snip := snippetOf normalized window_chars max_snippet_len idx phrase.length
        if snip.isEmpty then { seen_starts := seen, snippets := st.snippets }
        else if snip ∈ st.snippets.map Prod.snd then
          { seen_starts := seen, snippets := st.snippets }
        else { seen_starts := seen, snippets := st.snippets ++ [(idx, snip)] }

/-- Instrumented version of `extract_snippets` recording, for each returned
snippet, the starting offset that produced it. -/
def extractSnippetsA (plain_text : List Char) (phrases : List (List Char))
    (window_chars max_snippets max_snippet_len : Nat) : List (Nat × List Char) :=
  if plain_text.isEmpty ∨ phrases.isEmpty then []
  else
    let lower := plain_text.map Char.toLower
    let normalized := normWS plain_text
    let lower_norm := normWS lower
    (phrases.foldl
      (snippetStepA lower_norm normalized window_chars max_snippets max_snippet_len)
      { seen_starts := [], snippets := [] }).snippets.take max_snippets

/-! ### `scripts/process_telegram_feedback.py` -/

/-- A Telegram callback query, with the fields the script reads:
`cq.get("id")`, `str(cq["message"]["chat"]["id"])` and `cq.get("data")`.
Missing fields are `none`. -/
structure CallbackQuery where
  cq_id : Option String
  chat_id : String
  data : Option String
deriving DecidableEq

/-- A Telegram update as read by the script. -/
structure Update where
  update_id : Option Int
  callback_query : Option CallbackQuery
deriving DecidableEq

/-- One line of `feedback_labels.jsonl`. -/
structure FeedbackRow where
  update_id : Option Int
  accession_number : String
  suggested_event_type : String
  corrected_event_type : Option String
  created_at : String
deriving DecidableEq

/-- One `answerCallbackQuery` call made by the script. -/
structure Ack where
  callback_query_id : String
  text : Option String
deriving DecidableEq

/-- One inline-keyboard button. -/
structure Button where
  text : String
  callback_data : String
deriving DecidableEq

/-- One `sendMessage` call made by the script. -/
structure SentMessage where
  chat_id : String
  text : String
  reply_markup : Option (List (List Button))
deriving DecidableEq

/-- One iteration of the `for ev in ALL_EVENT_TYPES` loop of
`_build_event_type_keyboard`: state is `(row, keyboard)`.  A candidate whose
token exceeds 64 characters is skipped (`continue`); rows are flushed at
width 3.  All strings involved are ASCII, so `String.length` is the Python
byte/char length. -/
def keyboardStep (accession suggested : String)
    (st : List Button × List (List Button)) (ev : String) :
    List Button × List (List Button) :=
  let label := event_type_display_name ev
  let cb := "set:" ++ accession ++ ":" ++ suggested ++ ":" ++ ev
  if 64 < cb.length then st
  else
    let row := st.1 ++ [{ text := label, callback_data := cb }]
    if 3 ≤ row.length then ([], st.2 ++ [row]) else (row, st.2)

/-- Model of `_build_event_type_keyboard(accession, suggested)`. -/
def build_event_type_keyboard (accession suggested : String) :
    List (List Button) :=
  let rk := ALL_EVENT_TYPES.foldl (keyboardStep accession suggested) ([], [])
  if rk.1.isEmpty then rk.2 else rk.2 ++ [rk.1]

/-- Loop state of `process_updates`: the running `max_update_id`, the `seen`
set (as a list), the rows queued for appending, and the outbound effects. -/
structure LoopState where
  max_update_id : Int
  seen : List Int
  new_rows : List FeedbackRow
  acks : List Ack
  messages : List SentMessage
deriving DecidableEq

/-- Python `seen.add(uid)`.  In the `ok`/`set`/`irrelevant` branches Python
adds `uid` even when it is `None`; since membership is only ever tested under
`uid is not None`, adding `None` is unobservable and the model adds nothing
in that case. -/
def addSeen (seen : List Int) : Option Int → List Int
  | some uid => uid :: seen
  | none => seen

/-- The branch dispatch of `process_updates` on `parts = data_str.split(":", 3)`
(the `ok` / `wrong` / `set` / `irrelevant` / fallback arms). -/
def handleData (chat_id now_iso : String) (st : LoopState)
    (uid : Option Int) (cqId : String) (data_str : String) : LoopState :=
  let parts := splitSepMax ':' data_str 3
  let pfx := parts.headD ""
  if pfx = "ok" ∧ 3 ≤ parts.length then
    { st with
      new_rows := st.new_rows ++
        [{ update_id := uid, accession_number := parts.getD 1 "",
           suggested_event_type := parts.getD 2 "",
           corrected_event_type := none, created_at := now_iso }],
      seen := addSeen st.seen uid,
      acks := st.acks ++
        [{ callback_query_id := cqId, text := some "Thanks, marked as correct." }] }
  else if pfx = "wrong" ∧ 3 ≤ parts.length then
    { st with
      acks := st.acks ++ [{ callback_query_id := cqId, text := none }],
      messages := st.messages ++
        [{ chat_id := chat_id, text := "Which event type?",
           reply_markup := some (build_event_type_keyboard (parts.getD 1 "") (parts.getD 2 "")) }],
      seen := addSeen st.seen uid }
  else if pfx = "set" ∧ 4 ≤ parts.length then
    { st with
      new_rows := st.new_rows ++
        [{ update_id := uid, accession_number := parts.getD 1 "",
           suggested_event_type := parts.getD 2 "",
           corrected_event_type := some (parts.getD 3 ""), created_at := now_iso }],
      seen := addSeen st.seen uid,
      acks := st.acks ++
        [{ callback_query_id := cqId,
           text := some ("Thanks, recorded as " ++ event_type_display_name (parts.getD 3 "") ++ ".") }] }
  else if pfx = "irrelevant" ∧ 3 ≤ parts.length then
    { st with
      new_rows := st.new_rows ++
        [{ update_id := uid, accession_number := parts.getD 1 "",
           suggested_event_type := parts.getD 2 "",
           corrected_event_type := some NOT_RELEVANT, created_at := now_iso }],
      seen := addSeen st.seen uid,
      acks := st.acks ++
        [{ callback_query_id := cqId, text := some "Thanks, marked as not relevant." }] }
  else
    { st with acks := st.acks ++ [{ callback_query_id := cqId, text := none }] }

/-- One iteration of the `for upd in updates` loop of `process_updates`:
track `max_update_id`, apply the chat / data / callback-id guards, the
idempotency check against `seen`, then dispatch on the token prefix. -/
def processUpdate (chat_id now_iso : String) (st : LoopState) (upd : Update) :
    LoopState :=
  let st :=
    match upd.update_id with
    | some uid => { st with max_update_id := max st.max_update_id uid }
    | none => st
  match upd.callback_query with
  | none => st
  | some cq =>
    if cq.chat_id ≠ chat_id then st
    else
      let cqId := cq.cq_id.getD ""
      let data_str := pyStrip (cq.data.getD "")
      if data_str.isEmpty ∨ cqId.isEmpty then st
      else
        let dup :=
          match upd.update_id with
          | some uid => decide (uid ∈ st.seen)
          | none => false
        if dup then
          { st with acks := st.acks ++ [{ callback_query_id := cqId, text := none }] }
        else handleData chat_id now_iso st upd.update_id cqId data_str

/-- The persisted state `process_updates` starts from: the parsed rows of
`feedback_labels.jsonl` and the offset from `feedback_offset.txt`. -/
structure FeedbackFiles where
  log : List FeedbackRow
  offset : Int
deriving DecidableEq

/-- The observable outcome of one `process_updates` run: the persisted rows
and offset, and the acknowledgements and messages sent. -/
structure RunResult where
  log : List FeedbackRow
  offset : Int
  acks : List Ack
  messages : List SentMessage
deriving DecidableEq

/-- Model of `_seen_update_ids`: the non-null `update_id` fields of the
persisted rows. -/
def seenUpdateIds (log : List FeedbackRow) : List Int :=
  log.filterMap (fun r => r.update_id)

/-- Model of `process_updates(token, chat_id, feedback_path, offset_path)`.
The batch fetched by `_get_updates` is the `updates` argument; an empty batch
returns immediately (no offset write); otherwise all queued rows are appended
and `max_update_id + 1` is saved, where `max_update_id` starts from
`last_offset - 1`. -/
def process_updates (chat_id now_iso : String) (files : FeedbackFiles)
    (updates : List Update) : RunResult :=
  if updates.isEmpty then
    { log := files.log, offset := files.offset, acks := [], messages := [] }
  else
    let init : LoopState :=
      { max_update_id := files.offset - 1, seen := seenUpdateIds files.log,
        new_rows := [], acks := [], messages := [] }
    let fin := updates.foldl (processUpdate chat_id now_iso) init
    { log := files.log ++ fin.new_rows, offset := fin.max_update_id + 1,
      acks := fin.acks, messages := fin.messages }

/-- Number of rows carrying a given (non-null) update id. -/
def countRowsUid (rows : List FeedbackRow) (n : Int) : Nat :=
  (rows.filter (fun r => r.update_id = some n)).length

/-! ### Lemmas about the classifier -/

lemma rules_params : ∀ r ∈ RULES, r.cap = 1 ∧ r.base = 3/10 ∧ r.per_hit = 1/5 := by
  intro r hr
  simp only [RULES, List.mem_cons, List.not_mem_nil, or_false] at hr
  rcases hr with rfl | rfl | rfl | rfl | rfl | rfl | rfl | rfl | rfl | rfl | rfl <;>
    exact ⟨rfl, rfl, rfl⟩

lemma rules_no_sentinel : ∀ r ∈ RULES, r.event_type ≠ NOT_RELEVANT := by
  intro r hr
  simp only [RULES, List.mem_cons, List.not_mem_nil, or_false] at hr
  rcases hr with rfl | rfl | rfl | rfl | rfl | rfl | rfl | rfl | rfl | rfl | rfl <;>
    decide

lemma candConf_bounds (r : EventRule) (hits : Nat)
    (hcap : r.cap = 1) (hbase : r.base = 3/10) (hper : r.per_hit = 1/5) :
    3/10 ≤ candConf r hits ∧ candConf r hits ≤ 1 := by
  have h1 : (0 : Int) ≤ max 0 ((hits : Int) - 1) := le_max_left _ _
  have hk : (0 : Rat) ≤ ((max 0 ((hits : Int) - 1) : Int) : Rat) := by exact_mod_cast h1
  unfold candConf
  rw [hcap, hbase, hper]
  constructor
  · refine le_min (by norm_num) ?_
    nlinarith
  · exact min_le_left _ _

/-- The step of the `classify_event` loop never decreases the best
confidence. -/
lemma classifyStep_conf_mono (m : String → String → Bool) (text : String)
    (st : String × Rat × Int) (rule : EventRule) :
    st.2.1 ≤ (classifyStep m text st rule).2.1 := by
  simp only [classifyStep]
  split
  · exact le_refl _
  · split
    · rename_i hcond
      rcases hcond with hlt | ⟨heq, _⟩
      · exact le_of_lt hlt
      · exact le_of_eq heq.symm
    · exact le_refl _

lemma classify_foldl_conf_mono (m : String → String → Bool) (text : String)
    (l : List EventRule) (init : String × Rat × Int) :
    init.2.1 ≤ (l.foldl (classifyStep m text) init).2.1 := by
  induction l generalizing init with
  | nil => exact le_refl _
  | cons r rest ih =>
    exact le_trans (classifyStep_conf_mono m text init r) (ih _)

/-- The step keeps the best confidence within `[0, 1]` as long as the rule
has the static parameters. -/
lemma classifyStep_conf_bounds (m : String → String → Bool) (text : String)
    (st : String × Rat × Int) (rule : EventRule)
    (hr : rule.cap = 1 ∧ rule.base = 3/10 ∧ rule.per_hit = 1/5)
    (h : 0 ≤ st.2.1 ∧ st.2.1 ≤ 1) :
    0 ≤ (classifyStep m text st rule).2.1 ∧ (classifyStep m text st rule).2.1 ≤ 1 := by
  simp only [classifyStep]
  split
  · exact h
  · split
    · have hb := candConf_bounds rule (countRegexHits m text rule.patterns)
        hr.1 hr.2.1 hr.2.2
      exact ⟨le_trans (by norm_num) hb.1, hb.2⟩
    · exact h

lemma classify_foldl_conf_bounds (m : String → String → Bool) (text : String)
    (l : List EventRule)
    (hl : ∀ r ∈ l, r.cap = 1 ∧ r.base = 3/10 ∧ r.per_hit = 1/5)
    (init : String × Rat × Int) (h : 0 ≤ init.2.1 ∧ init.2.1 ≤ 1) :
    0 ≤ (l.foldl (classifyStep m text) init).2.1 ∧
      (l.foldl (classifyStep m text) init).2.1 ≤ 1 := by
  induction l generalizing init with
  | nil => exact h
  | cons r rest ih =>
    exact ih (fun r' hr' => hl r' (List.mem_cons_of_mem _ hr'))
      _ (classifyStep_conf_bounds m text init r (hl r (List.mem_cons_self _ _)) h)

/-- The step either keeps the best event type or takes the rule's. -/
lemma classifyStep_type (m : String → String → Bool) (text : String)
    (st : String × Rat × Int) (rule : EventRule) :
    (classifyStep m text st rule).1 = st.1 ∨
      (classifyStep m text st rule).1 = rule.event_type := by
  simp only [classifyStep]
  split
  · exact Or.inl rfl
  · split
    · exact Or.inr rfl
    · exact Or.inl rfl

lemma classify_foldl_type (m : String → String → Bool) (text : String)
    (l : List EventRule) (init : String × Rat × Int)
    (hl : ∀ r ∈ l, r.event_type ≠ NOT_RELEVANT) (h : init.1 ≠ NOT_RELEVANT) :
    (l.foldl (classifyStep m text) init).1 ≠ NOT_RELEVANT := by
  induction l generalizing init with
  | nil => exact h
  | cons r rest ih =>
    refine ih _ (fun r' hr' => hl r' (List.mem_cons_of_mem _ hr')) ?_
    rcases classifyStep_type m text init r with heq | heq
    · rw [heq]; exact h
    · rw [heq]; exact hl r (List.mem_cons_self _ _)

/-- If no rule has a hit, the loop leaves the initial best untouched. -/
lemma classify_foldl_no_hits (m : String → String → Bool) (text : String)
    (l : List EventRule) (init : String × Rat × Int)
    (hl : ∀ r ∈ l, countRegexHits m text r.patterns = 0) :
    l.foldl (classifyStep m text) init = init := by
  induction l generalizing init with
  | nil => rfl
  | cons r rest ih =>
    have hstep : classifyStep m text init r = init := by
      simp only [classifyStep]
      rw [if_pos (hl r (List.mem_cons_self _ _))]
    rw [List.foldl_cons, hstep]
    exact ih _ (fun r' hr' => hl r' (List.mem_cons_of_mem _ hr'))

/-! ### Claims about the classifier -/

/-- Claim C1: in `classify_event`, a rule's candidate replaces the current
best exactly when its confidence is strictly greater than the current best
confidence, or equal with strictly greater priority; the initial best of the
loop is the fallback `(GENERIC_NEWS, 0.2, -1)`; and no matching rule of the
static table ever has candidate confidence exactly 0.2 (so ties at 0.2 never
replace the fallback). -/
theorem claim_C1 (m : String → String → Bool) (text : String)
    (best : String × Rat × Int) (rule : EventRule)
    (h : 1 ≤ countRegexHits m text rule.patterns) :
    (classifyStep m text best rule =
      if best.2.1 < candConf rule (countRegexHits m text rule.patterns) ∨
         (candConf rule (countRegexHits m text rule.patterns) = best.2.1 ∧
          best.2.2 < rule.priority) then
        (rule.event_type, candConf rule (countRegexHits m text rule.patterns),
          rule.priority)
      else best) ∧
    ((pyStrip text).isEmpty = false →
      classify_event m text =
        ((RULES.foldl (classifyStep m text) (GENERIC_NEWS, 1/5, -1)).1,
         (RULES.foldl (classifyStep m text) (GENERIC_NEWS, 1/5, -1)).2.1)) ∧
    (rule ∈ RULES → candConf rule (countRegexHits m text rule.patterns) ≠ 1/5) := by
  refine ⟨?_, ?_, ?_⟩
  · simp only [classifyStep]
    rw [if_neg (by omega : ¬ countRegexHits m text rule.patterns = 0)]
  · intro hne
    simp only [classify_event, hne, Bool.false_eq_true, if_false]
  · intro hmem
    have hp := rules_params rule hmem
    have hb := (candConf_bounds rule (countRegexHits m text rule.patterns)
      hp.1 hp.2.1 hp.2.2).1
    intro heq
    rw [heq] at hb
    norm_num at hb

theorem claim_C1_witness :
    (classifyStep (fun _ _ => true) "x" (GENERIC_NEWS, 1/5, -1)
        (RULES.headD { event_type := "", patterns := [] }) =
      if (GENERIC_NEWS, (1/5 : Rat), (-1 : Int)).2.1 <
           candConf (RULES.headD { event_type := "", patterns := [] })
             (countRegexHits (fun _ _ => true) "x"
               (RULES.headD { event_type := "", patterns := [] }).patterns) ∨
         (candConf (RULES.headD { event_type := "", patterns := [] })
             (countRegexHits (fun _ _ => true) "x"
               (RULES.headD { event_type := "", patterns := [] }).patterns) =
            (GENERIC_NEWS, (1/5 : Rat), (-1 : Int)).2.1 ∧
          (GENERIC_NEWS, (1/5 : Rat), (-1 : Int)).2.2 <
            (RULES.headD { event_type := "", patterns := [] }).priority) then
        ((RULES.headD { event_type := "", patterns := [] }).event_type,
         candConf (RULES.headD { event_type := "", patterns := [] })
           (countRegexHits (fun _ _ => true) "x"
             (RULES.headD { event_type := "", patterns := [] }).patterns),
         (RULES.headD { event_type := "", patterns := [] }).priority)
      else (GENERIC_NEWS, 1/5, -1)) ∧
    classify_event (fun _ _ => true) "x" =
      ((RULES.foldl (classifyStep (fun _ _ => true) "x") (GENERIC_NEWS, 1/5, -1)).1,
       (RULES.foldl (classifyStep (fun _ _ => true) "x") (GENERIC_NEWS, 1/5, -1)).2.1) ∧
    candConf (RULES.headD { event_type := "", patterns := [] })
      (countRegexHits (fun _ _ => true) "x"
        (RULES.headD { event_type := "", patterns := [] }).patterns) ≠ 1/5 := by
  have h := claim_C1 (fun _ _ => true) "x" (GENERIC_NEWS, 1/5, -1)
    (RULES.headD { event_type := "", patterns := [] }) (by decide)
  exact ⟨h.1, h.2.1 (by decide),
    h.2.2 (by unfold RULES; exact List.mem_cons_self _ _)⟩

/-- Claim C2: for a rule with at least one hit the candidate confidence is
exactly `min(cap, base + per_hit * (hits - 1))`; the confidence returned by
`classify_event` always lies in `[0, 1]` and never exceeds any (hence the
winning) rule's configured cap. -/
theorem claim_C2 (m : String → String → Bool) (text : String) (rule : EventRule)
    (h : 1 ≤ countRegexHits m text rule.patterns) :
    candConf rule (countRegexHits m text rule.patterns) =
      min rule.cap (rule.base + rule.per_hit *
        (((countRegexHits m text rule.patterns : Int) - 1 : Int) : Rat)) ∧
    0 ≤ (classify_event m text).2 ∧ (classify_event m text).2 ≤ 1 ∧
    ∀ r ∈ RULES, (classify_event m text).2 ≤ r.cap := by
  have hbounds : 0 ≤ (classify_event m text).2 ∧ (classify_event m text).2 ≤ 1 := by
    unfold classify_event
    split
    · constructor <;> norm_num
    · exact classify_foldl_conf_bounds m text RULES rules_params _ (by norm_num)
  refine ⟨?_, hbounds.1, hbounds.2, ?_⟩
  · unfold candConf
    have hmax : max 0 ((countRegexHits m text rule.patterns : Int) - 1)
        = (countRegexHits m text rule.patterns : Int) - 1 := by omega
    rw [hmax]
  · intro r hr
    rw [(rules_params r hr).1]
    exact hbounds.2

theorem claim_C2_witness :
    candConf (RULES.headD { event_type := "", patterns := [] })
        (countRegexHits (fun _ _ => true) "x"
          (RULES.headD { event_type := "", patterns := [] }).patterns) =
      min (RULES.headD { event_type := "", patterns := [] }).cap
        ((RULES.headD { event_type := "", patterns := [] }).base +
          (RULES.headD { event_type := "", patterns := [] }).per_hit *
          (((countRegexHits (fun _ _ => true) "x"
              (RULES.headD { event_type := "", patterns := [] }).patterns : Int) - 1 : Int) : Rat)) ∧
    0 ≤ (classify_event (fun _ _ => true) "x").2 ∧
    (classify_event (fun _ _ => true) "x").2 ≤ 1 ∧
    (classify_event (fun _ _ => true) "x").2 ≤
      (RULES.headD { event_type := "", patterns := [] }).cap := by
  have h := claim_C2 (fun _ _ => true) "x"
    (RULES.headD { event_type := "", patterns := [] }) (by decide)
  exact ⟨h.1, h.2.1, h.2.2.1,
    h.2.2.2 _ (by unfold RULES; exact List.mem_cons_self _ _)⟩

/-- Claim C6: on an empty or whitespace-only text, or on any text on which no
rule pattern matches, `classify_event` returns the fallback
`(GENERIC_NEWS, 0.2)`. -/
theorem claim_C6 (m : String → String → Bool) (text : String)
    (h : (pyStrip text).isEmpty = true ∨
      ∀ r ∈ RULES, countRegexHits m text r.patterns = 0) :
    classify_event m text = (GENERIC_NEWS, 1/5) := by
  unfold classify_event
  rcases h with hempty | hnone
  · rw [if_pos hempty]
  · split
    · rfl
    · rw [classify_foldl_no_hits m text RULES _ hnone]

theorem claim_C6_witness :
    classify_event (fun _ _ => true) "  " = (GENERIC_NEWS, 1/5) ∧
    classify_event (fun _ _ => false) "hello world" = (GENERIC_NEWS, 1/5) := by
  exact ⟨claim_C6 (fun _ _ => true) "  " (Or.inl (by decide)),
    claim_C6 (fun _ _ => false) "hello world" (Or.inr (by decide))⟩

/-- Claim C10: for every text the returned confidence is at least 0.2, and
with the static rule table the returned event type is never the
`NOT_RELEVANT` sentinel. -/
theorem claim_C10 (m : String → String → Bool) (text : String) :
    1/5 ≤ (classify_event m text).2 ∧
    (classify_event m text).1 ≠ NOT_RELEVANT := by
  unfold classify_event
  split
  · exact ⟨le_refl _, by decide⟩
  · exact ⟨classify_foldl_conf_mono m text RULES (GENERIC_NEWS, 1/5, -1),
      classify_foldl_type m text RULES (GENERIC_NEWS, 1/5, -1)
        rules_no_sentinel (by decide)⟩

/-- Claim C9, counterexample: an unknown non-empty tag is returned verbatim,
not replaced by the generic label `"Filing"`. -/
theorem claim_C9_counterexample :
    event_type_display_name "FOO" = "FOO" ∧ "FOO" ≠ "Filing" := by
  exact ⟨by decide, by decide⟩

/-- Claim C9 as amended: each known event type maps to its short label from
the static table; an unknown tag is returned verbatim, and only the empty
tag falls back to the generic label `"Filing"`. -/
theorem claim_C9_amended (tag : String) :
    (tag ∉ ALL_EVENT_TYPES →
      event_type_display_name tag = if tag.isEmpty then "Filing" else tag) ∧
    event_type_display_name PREF_CALL = "Redemption / Call" ∧
    event_type_display_name PREF_PARTIAL_CALL = "Partial call / Redemption" ∧
    event_type_display_name PREF_NEW_ISSUE = "New preferred issue / terms" ∧
    event_type_display_name DIV_SUSPENSION = "Dividend suspension / omission" ∧
    event_type_display_name OFFERING = "Offering / ATM" ∧
    event_type_display_name RIGHTS_OFFERING = "Rights offering" ∧
    event_type_display_name TENDER_OFFER = "Tender offer / repurchase" ∧
    event_type_display_name EXCHANGE_OFFER = "Exchange offer / consent" ∧
    event_type_display_name CEF_DISTRIBUTION_CHANGE = "CEF distribution change" ∧
    event_type_display_name LIQUIDATION_TERMINATION = "Liquidation / Termination" ∧
    event_type_display_name EARNINGS = "Earnings / earnings call" ∧
    event_type_display_name GENERIC_NEWS = "Filing" := by
  refine ⟨?_, by decide, by decide, by decide, by decide, by decide, by decide,
    by decide, by decide, by decide, by decide, by decide, by decide⟩
  intro hmem
  simp only [ALL_EVENT_TYPES, List.mem_cons, List.not_mem_nil, or_false,
    not_or] at hmem
  obtain ⟨h1, h2, h3, h4, h5, h6, h7, h8, h9, h10, h11, h12⟩ := hmem
  unfold event_type_display_name
  rw [if_neg h1, if_neg h2, if_neg h3, if_neg h4, if_neg h5, if_neg h6,
    if_neg h7, if_neg h8, if_neg h9, if_neg h10, if_neg h11, if_neg h12]

theorem claim_C9_amended_witness :
    event_type_display_name "FOO" = (if ("FOO" : String).isEmpty then "Filing" else "FOO") ∧
    event_type_display_name GENERIC_NEWS = "Filing" := by
  exact ⟨(claim_C9_amended "FOO").1 (by decide), (claim_C9_amended "FOO").2.2.2.2.2.2.2.2.2.2.2.2⟩

/-! ### Lemmas about the snippet extractor -/

lemma snippetTruncate_length (ml : Nat) (snip : List Char) (h3 : 3 ≤ ml) :
    (snippetTruncate ml snip).length ≤ ml := by
  unfold snippetTruncate
  split
  · unfold pyTake
    rw [if_pos (by omega : (0 : Int) ≤ (ml : Int) - 3)]
    have ht : ((ml : Int) - 3).toNat = ml - 3 := by omega
    have hdots : ("...".data).length = 3 := rfl
    rw [ht, List.length_append, List.length_take, hdots]
    omega
  · rename_i hge
    omega

lemma snippetOf_length (nm : List Char) (w ml idx plen : Nat) (h3 : 3 ≤ ml) :
    (snippetOf nm w ml idx plen).length ≤ ml := by
  unfold snippetOf
  exact snippetTruncate_length ml _ h3

/-- The instrumented loop step computes the same snippets as the plain one. -/
lemma snippetStep_corresp (ln nm : List Char) (w ms ml : Nat)
    (st : SnipState) (sa : SnipStateA) (phrase : List Char)
    (h1 : st.seen_starts = sa.seen_starts)
    (h2 : st.snippets = sa.snippets.map Prod.snd) :
    (snippetStep ln nm w ms ml st phrase).seen_starts
        = (snippetStepA ln nm w ms ml sa phrase).seen_starts ∧
    (snippetStep ln nm w ms ml st phrase).snippets
        = (snippetStepA ln nm w ms ml sa phrase).snippets.map Prod.snd := by
  by_cases hfull : ms ≤ sa.snippets.length
  · have hfull' : ms ≤ st.snippets.length := by rw [h2, List.length_map]; exact hfull
    simp only [snippetStep, snippetStepA, if_pos hfull, if_pos hfull']
    exact ⟨h1, h2⟩
  · have hfull' : ¬ ms ≤ st.snippets.length := by rw [h2, List.length_map]; exact hfull
    simp only [snippetStep, snippetStepA, if_neg hfull, if_neg hfull']
    cases hf : findSub (phrase.map Char.toLower) ln with
    | none => exact ⟨h1, h2⟩
    | some idx =>
      dsimp only
      by_cases hidx : idx ∈ sa.seen_starts
      · have hidx' : idx ∈ st.seen_starts := by rw [h1]; exact hidx
        rw [if_pos hidx, if_pos hidx']
        exact ⟨h1, h2⟩
      · have hidx' : idx ∉ st.seen_starts := by rw [h1]; exact hidx
        rw [if_neg hidx, if_neg hidx']
        by_cases hemp : (snippetOf nm w ml idx phrase.length).isEmpty = true
        · rw [if_pos hemp, if_pos hemp]
          exact ⟨by rw [h1], h2⟩
        · rw [if_neg hemp, if_neg hemp]
          by_cases hmem : snippetOf nm w ml idx phrase.length ∈ sa.snippets.map Prod.snd
          · have hmem' : snippetOf nm w ml idx phrase.length ∈ st.snippets := by
              rw [h2]; exact hmem
            rw [if_pos hmem, if_pos hmem']
            exact ⟨by rw [h1], h2⟩
          · have hmem' : snippetOf nm w ml idx phrase.length ∉ st.snippets := by
              rw [h2]; exact hmem
            rw [if_neg hmem, if_neg hmem']
            refine ⟨by rw [h1], ?_⟩
            rw [h2, List.map_append]
            rfl

lemma snippet_foldl_corresp (ln nm : List Char) (w ms ml : Nat)
    (phrases : List (List Char)) (st : SnipState) (sa : SnipStateA)
    (h1 : st.seen_starts = sa.seen_starts)
    (h2 : st.snippets = sa.snippets.map Prod.snd) :
    (phrases.foldl (snippetStep ln nm w ms ml) st).snippets
      = ((phrases.foldl (snippetStepA ln nm w ms ml) sa).snippets).map Prod.snd := by
  induction phrases generalizing st sa with
  | nil => exact h2
  | cons p rest ih =>
    have h := snippetStep_corresp ln nm w ms ml st sa p h1 h2
    exact ih _ _ h.1 h.2

lemma extract_snippets_corresp (text : List Char) (phrases : List (List Char))
    (w ms ml : Nat) :
    extract_snippets text phrases w ms ml
      = (extractSnippetsA text phrases w ms ml).map Prod.snd := by
  simp only [extract_snippets, extractSnippetsA]
  split
  · rfl
  · rw [List.map_take]
    congr 1
    exact snippet_foldl_corresp _ _ _ _ _ _ _ _ rfl rfl

/-- The instrumented step keeps the collected starting offsets distinct, and
keeps them inside the `seen_starts` set. -/
lemma snippetStepA_nodup (ln nm : List Char) (w ms ml : Nat)
    (sa : SnipStateA) (phrase : List Char)
    (hnd : (sa.snippets.map Prod.fst).Nodup)
    (hsub : ∀ i ∈ sa.snippets.map Prod.fst, i ∈ sa.seen_starts) :
    ((snippetStepA ln nm w ms ml sa phrase).snippets.map Prod.fst).Nodup ∧
    ∀ i ∈ (snippetStepA ln nm w ms ml sa phrase).snippets.map Prod.fst,
      i ∈ (snippetStepA ln nm w ms ml sa phrase).seen_starts := by
  simp only [snippetStepA]
  split
  · exact ⟨hnd, hsub⟩
  · cases hf : findSub (phrase.map Char.toLower) ln with
    | none => exact ⟨hnd, hsub⟩
    | some idx =>
      dsimp only
      by_cases hidx : idx ∈ sa.seen_starts
      · rw [if_pos hidx]
        exact ⟨hnd, hsub⟩
      · rw [if_neg hidx]
        by_cases hemp : (snippetOf nm w ml idx phrase.length).isEmpty = true
        · rw [if_pos hemp]
          exact ⟨hnd, fun i hi => List.mem_cons_of_mem _ (hsub i hi)⟩
        · rw [if_neg hemp]
          by_cases hmem : snippetOf nm w ml idx phrase.length ∈ sa.snippets.map Prod.snd
          · rw [if_pos hmem]
            exact ⟨hnd, fun i hi => List.mem_cons_of_mem _ (hsub i hi)⟩
          · rw [if_neg hmem]
            constructor
            · simp only [List.map_append, List.map_cons, List.map_nil]
              rw [List.nodup_append]
              refine ⟨hnd, List.nodup_singleton _, ?_⟩
              intro i hi hi2
              rw [List.mem_singleton] at hi2
              subst hi2
              exact hidx (hsub i hi)
            · intro i hi
              simp only [List.map_append, List.map_cons, List.map_nil] at hi
              rcases List.mem_append.mp hi with hi | hi
              · exact List.mem_cons_of_mem _ (hsub i hi)
              · rw [List.mem_singleton] at hi
                subst hi
                exact List.mem_cons_self _ _

lemma snippet_foldlA_nodup (ln nm : List Char) (w ms ml : Nat)
    (phrases : List (List Char)) (sa : SnipStateA)
    (hnd : (sa.snippets.map Prod.fst).Nodup)
    (hsub : ∀ i ∈ sa.snippets.map Prod.fst, i ∈ sa.seen_starts) :
    (((phrases.foldl (snippetStepA ln nm w ms ml) sa).snippets).map Prod.fst).Nodup := by
  induction phrases generalizing sa with
  | nil => exact hnd
  | cons p rest ih =>
    have h := snippetStepA_nodup ln nm w ms ml sa p hnd hsub
    exact ih _ h.1 h.2

/-- The instrumented step keeps every collected snippet within the length
bound, as long as the bound is at least 3. -/
lemma snippetStepA_len (ln nm : List Char) (w ms ml : Nat) (h3 : 3 ≤ ml)
    (sa : SnipStateA) (phrase : List Char)
    (hlen : ∀ p ∈ sa.snippets, p.2.length ≤ ml) :
    ∀ p ∈ (snippetStepA ln nm w ms ml sa phrase).snippets, p.2.length ≤ ml := by
  simp only [snippetStepA]
  split
  · exact hlen
  · cases hf : findSub (phrase.map Char.toLower) ln with
    | none => exact hlen
    | some idx =>
      dsimp only
      by_cases hidx : idx ∈ sa.seen_starts
      · rw [if_pos hidx]; exact hlen
      · rw [if_neg hidx]
        by_cases hemp : (snippetOf nm w ml idx phrase.length).isEmpty = true
        · rw [if_pos hemp]; exact hlen
        · rw [if_neg hemp]
          by_cases hmem : snippetOf nm w ml idx phrase.length ∈ sa.snippets.map Prod.snd
          · rw [if_pos hmem]; exact hlen
          · rw [if_neg hmem]
            intro p hp
            rcases List.mem_append.mp hp with hp | hp
            · exact hlen p hp
            · rw [List.mem_singleton] at hp
              subst hp
              exact snippetOf_length nm w ml idx phrase.length h3

lemma snippet_foldlA_len (ln nm : List Char) (w ms ml : Nat) (h3 : 3 ≤ ml)
    (phrases : List (List Char)) (sa : SnipStateA)
    (hlen : ∀ p ∈ sa.snippets, p.2.length ≤ ml) :
    ∀ p ∈ (phrases.foldl (snippetStepA ln nm w ms ml) sa).snippets,
      p.2.length ≤ ml := by
  induction phrases generalizing sa with
  | nil => exact hlen
  | cons p rest ih =>
    exact ih _ (snippetStepA_len ln nm w ms ml h3 sa p hlen)

/-! ### Claims about the snippet extractor -/

/-- Claim C5, counterexample: with `max_snippet_len = 0` the negative Python
slice in the truncation (`snip[: max_snippet_len - 3] + "..."`) returns a
5-character snippet, violating the claimed length bound for `max_len ≥ 0`. -/
theorem claim_C5_counterexample :
    extract_snippets "abcde".data ["abcde".data] 0 1 0 = ["ab...".data] ∧
    ¬ (("ab...".data).length ≤ 0) := by
  exact ⟨by decide, by decide⟩

/-- Claim C5 as amended: `extract_snippets` returns at most `max_snippets`
entries; the entries are exactly the snippets of the instrumented extractor,
whose recorded starting offsets (in the normalized text) are pairwise
distinct; and, provided `max_len ≥ 3`, every returned entry's length is at
most `max_len`. -/
theorem claim_C5_amended (text : List Char) (phrases : List (List Char))
    (w ms ml : Nat) :
    (extract_snippets text phrases w ms ml).length ≤ ms ∧
    extract_snippets text phrases w ms ml
      = (extractSnippetsA text phrases w ms ml).map Prod.snd ∧
    ((extractSnippetsA text phrases w ms ml).map Prod.fst).Nodup ∧
    (3 ≤ ml → ∀ s ∈ extract_snippets text phrases w ms ml, s.length ≤ ml) := by
  refine ⟨?_, extract_snippets_corresp text phrases w ms ml, ?_, ?_⟩
  · simp only [extract_snippets]
    split
    · simp
    · rw [List.length_take]
      omega
  · simp only [extractSnippetsA]
    split
    · simp
    · rw [List.map_take]
      exact (List.take_sublist _ _).nodup
        (snippet_foldlA_nodup _ _ _ _ _ phrases _ (by simp) (by simp))
  · intro h3 s hs
    rw [extract_snippets_corresp] at hs
    rcases List.mem_map.mp hs with ⟨p, hp, rfl⟩
    revert hp
    simp only [extractSnippetsA]
    split
    · intro hp
      exact absurd hp (List.not_mem_nil p)
    · intro hp
      exact snippet_foldlA_len _ _ _ _ _ h3 phrases _ (by simp) p
        (List.mem_of_mem_take hp)

theorem claim_C5_amended_witness :
    (extract_snippets "abcde".data ["abcde".data] 0 1 3).length ≤ 1 ∧
    extract_snippets "abcde".data ["abcde".data] 0 1 3
      = (extractSnippetsA "abcde".data ["abcde".data] 0 1 3).map Prod.snd ∧
    ((extractSnippetsA "abcde".data ["abcde".data] 0 1 3).map Prod.fst).Nodup ∧
    ("...".data).length ≤ 3 := by
  have h := claim_C5_amended "abcde".data ["abcde".data] 0 1 3
  exact ⟨h.1, h.2.1, h.2.2.1, h.2.2.2 (by norm_num) "...".data (by decide)⟩

/-- Claim C8, counterexample: phrases are not whitespace-normalized before
searching.  A phrase that differs from the text only by an internal double
space is not found (the claim implies it would yield a snippet), while the
single-spaced phrase is found in the same text. -/
theorem claim_C8_counterexample :
    extract_snippets "tender offer".data ["tender  offer".data] 250 3 200 = [] ∧
    extract_snippets "tender offer".data ["tender offer".data] 250 3 200
      = ["tender offer".data] := by
  exact ⟨by decide, by decide⟩

/-- Claim C8 as amended: only the text is whitespace-normalized (and
lowercased) before the case-insensitive search; each phrase is lowercased but
keeps its whitespace.  A text that differs from a single-spaced phrase only
in internal whitespace runs or case still yields a snippet, while a phrase
containing a multi-character whitespace run is not found in the normalized
text. -/
theorem claim_C8_amended :
    extract_snippets "tender  offer".data ["tender offer".data] 250 3 200
      = ["tender offer".data] ∧
    extract_snippets "TENDER  Offer".data ["tender offer".data] 250 3 200
      = ["TENDER Offer".data] ∧
    extract_snippets "tender offer".data ["tender  offer".data] 250 3 200 = [] := by
  exact ⟨by decide, by decide, by decide⟩

/-! ### Lemmas about the feedback processor -/

lemma addSeen_subset (seen : List Int) (uid : Option Int) :
    seen ⊆ addSeen seen uid := by
  cases uid with
  | none => exact fun x hx => hx
  | some k => exact fun x hx => List.mem_cons_of_mem _ hx

/-- The token-dispatch step leaves `max_update_id` alone, only grows `seen`,
and either appends no row or appends exactly one row carrying the update's
id (also recording the id into `seen`). -/
lemma handleData_spec (c n : String) (st : LoopState) (uid : Option Int)
    (cqId d : String) :
    (handleData c n st uid cqId d).max_update_id = st.max_update_id ∧
    st.seen ⊆ (handleData c n st uid cqId d).seen ∧
    ((handleData c n st uid cqId d).new_rows = st.new_rows ∨
      ∃ row, (handleData c n st uid cqId d).new_rows = st.new_rows ++ [row] ∧
        row.update_id = uid ∧
        (handleData c n st uid cqId d).seen = addSeen st.seen uid) := by
  simp only [handleData]
  split
  · exact ⟨rfl, addSeen_subset _ _, Or.inr ⟨_, rfl, rfl, rfl⟩⟩
  · split
    · exact ⟨rfl, addSeen_subset _ _, Or.inl rfl⟩
    · split
      · exact ⟨rfl, addSeen_subset _ _, Or.inr ⟨_, rfl, rfl, rfl⟩⟩
      · split
        · exact ⟨rfl, addSeen_subset _ _, Or.inr ⟨_, rfl, rfl, rfl⟩⟩
        · exact ⟨rfl, fun x hx => hx, Or.inl rfl⟩

/-- One loop iteration updates `max_update_id` exactly by `max` with the
update's id, only grows `seen`, and appends a row (carrying the update's id)
only when that id was not yet in `seen`. -/
lemma processUpdate_spec (c n : String) (st : LoopState) (u : Update) :
    ((processUpdate c n st u).max_update_id =
      match u.update_id with
      | some uid => max st.max_update_id uid
      | none => st.max_update_id) ∧
    st.seen ⊆ (processUpdate c n st u).seen ∧
    ((processUpdate c n st u).new_rows = st.new_rows ∨
      ∃ row, (processUpdate c n st u).new_rows = st.new_rows ++ [row] ∧
        row.update_id = u.update_id ∧
        (processUpdate c n st u).seen = addSeen st.seen u.update_id ∧
        ∀ k, u.update_id = some k → k ∉ st.seen) := by
  obtain ⟨uid?, cq?⟩ := u
  simp only [processUpdate]
  cases uid? with
  | none =>
    dsimp only
    cases cq? with
    | none => exact ⟨rfl, fun x hx => hx, Or.inl rfl⟩
    | some cq =>
      dsimp only
      by_cases hchat : cq.chat_id ≠ c
      · rw [if_pos hchat]
        exact ⟨rfl, fun x hx => hx, Or.inl rfl⟩
      · rw [if_neg hchat]
        by_cases hguard : (pyStrip (cq.data.getD "")).isEmpty = true ∨
            (cq.cq_id.getD "").isEmpty = true
        · rw [if_pos hguard]
          exact ⟨rfl, fun x hx => hx, Or.inl rfl⟩
        · rw [if_neg hguard, if_neg Bool.false_ne_true]
          have h := handleData_spec c n st none (cq.cq_id.getD "")
            (pyStrip (cq.data.getD ""))
          refine ⟨h.1, h.2.1, ?_⟩
          rcases h.2.2 with hr | ⟨row, hrows, hrid, hseen⟩
          · exact Or.inl hr
          · exact Or.inr ⟨row, hrows, hrid, hseen, fun k hk => by cases hk⟩
  | some uid =>
    dsimp only
    cases cq? with
    | none => exact ⟨rfl, fun x hx => hx, Or.inl rfl⟩
    | some cq =>
      dsimp only
      by_cases hchat : cq.chat_id ≠ c
      · rw [if_pos hchat]
        exact ⟨rfl, fun x hx => hx, Or.inl rfl⟩
      · rw [if_neg hchat]
        by_cases hguard : (pyStrip (cq.data.getD "")).isEmpty = true ∨
            (cq.cq_id.getD "").isEmpty = true
        · rw [if_pos hguard]
          exact ⟨rfl, fun x hx => hx, Or.inl rfl⟩
        · rw [if_neg hguard]
          by_cases hdup : uid ∈ st.seen
          · rw [if_pos (decide_eq_true hdup)]
            exact ⟨rfl, fun x hx => hx, Or.inl rfl⟩
          · rw [if_neg (fun hc => hdup (of_decide_eq_true hc))]
            have h := handleData_spec c n
              { st with max_update_id := max st.max_update_id uid }
              (some uid) (cq.cq_id.getD "") (pyStrip (cq.data.getD ""))
            refine ⟨h.1, h.2.1, ?_⟩
            rcases h.2.2 with hr | ⟨row, hrows, hrid, hseen⟩
            · exact Or.inl hr
            · exact Or.inr ⟨row, hrows, hrid, hseen,
                fun k hk => by cases hk; exact hdup⟩

lemma process_foldl_max_ge (c n : String) (l : List Update) (init : LoopState) :
    init.max_update_id ≤ (l.foldl (processUpdate c n) init).max_update_id := by
  induction l generalizing init with
  | nil => exact le_refl _
  | cons u rest ih =>
    refine le_trans ?_ (ih (processUpdate c n init u))
    have hm := (processUpdate_spec c n init u).1
    cases h : u.update_id with
    | none => simp only [h] at hm; rw [hm]
    | some k => simp only [h] at hm; rw [hm]; exact le_max_left _ _

lemma process_foldl_max_mem (c n : String) (l : List Update) (init : LoopState) :
    ∀ u ∈ l, ∀ k, u.update_id = some k →
      k ≤ (l.foldl (processUpdate c n) init).max_update_id := by
  induction l generalizing init with
  | nil => intro u hu; exact absurd hu (List.not_mem_nil u)
  | cons v rest ih =>
    intro u hu k hk
    rcases List.mem_cons.mp hu with rfl | hu
    · refine le_trans ?_ (process_foldl_max_ge c n rest (processUpdate c n init u))
      have hm := (processUpdate_spec c n init u).1
      simp only [hk] at hm
      rw [hm]
      exact le_max_right _ _
    · exact ih (processUpdate c n init v) u hu k hk

lemma countRowsUid_append (a b : List FeedbackRow) (n : Int) :
    countRowsUid (a ++ b) n = countRowsUid a n + countRowsUid b n := by
  simp [countRowsUid, List.filter_append]

lemma countRowsUid_singleton (r : FeedbackRow) (n : Int) :
    countRowsUid [r] n = if r.update_id = some n then 1 else 0 := by
  by_cases h : r.update_id = some n <;> simp [countRowsUid, h]

lemma mem_seenUpdateIds_iff (log : List FeedbackRow) (n : Int) :
    n ∈ seenUpdateIds log ↔ 1 ≤ countRowsUid log n := by
  unfold seenUpdateIds countRowsUid
  rw [List.mem_filterMap]
  constructor
  · rintro ⟨r, hr, hid⟩
    have hmem : r ∈ log.filter (fun r => r.update_id = some n) :=
      List.mem_filter.mpr ⟨hr, by simp [hid]⟩
    exact List.length_pos.mpr (List.ne_nil_of_mem hmem)
  · intro h
    have hne : log.filter (fun r => r.update_id = some n) ≠ [] := by
      intro heq
      rw [heq] at h
      simp at h
    obtain ⟨r, hr⟩ := List.exists_mem_of_ne_nil _ hne
    have hm := List.mem_filter.mp hr
    exact ⟨r, hm.1, by simpa using hm.2⟩

/-- Per-step preservation of "at most one queued row for id `k`, and if one
is queued then `k` is in `seen`". -/
lemma processUpdate_inv_once (c n : String) (st : LoopState) (u : Update)
    (k : Int)
    (hJ1 : countRowsUid st.new_rows k ≤ 1)
    (hJ2 : 1 ≤ countRowsUid st.new_rows k → k ∈ st.seen) :
    countRowsUid (processUpdate c n st u).new_rows k ≤ 1 ∧
    (1 ≤ countRowsUid (processUpdate c n st u).new_rows k →
      k ∈ (processUpdate c n st u).seen) := by
  have hspec := processUpdate_spec c n st u
  rcases hspec.2.2 with hrows | ⟨row, hrows, hrid, hseen, hfresh⟩
  · rw [hrows]
    exact ⟨hJ1, fun h => hspec.2.1 (hJ2 h)⟩
  · rw [hrows, countRowsUid_append, countRowsUid_singleton]
    by_cases hr : row.update_id = some k
    · rw [if_pos hr]
      have huk : u.update_id = some k := by rw [← hrid]; exact hr
      have hnot : k ∉ st.seen := hfresh k huk
      have hzero : countRowsUid st.new_rows k = 0 := by
        by_contra hnz
        exact hnot (hJ2 (by omega))
      rw [hzero]
      refine ⟨le_refl _, fun _ => ?_⟩
      rw [hseen, huk]
      exact List.mem_cons_self _ _
    · rw [if_neg hr]
      simp only [Nat.add_zero]
      exact ⟨hJ1, fun h => hspec.2.1 (hJ2 h)⟩

/-- Per-step preservation of "id `k` is in `seen` and no queued row carries
it" (the replay-after-persistence case). -/
lemma processUpdate_inv_seen (c n : String) (st : LoopState) (u : Update)
    (k : Int) (h1 : k ∈ st.seen) (h2 : countRowsUid st.new_rows k = 0) :
    k ∈ (processUpdate c n st u).seen ∧
      countRowsUid (processUpdate c n st u).new_rows k = 0 := by
  have hspec := processUpdate_spec c n st u
  refine ⟨hspec.2.1 h1, ?_⟩
  rcases hspec.2.2 with hrows | ⟨row, hrows, hrid, hseen, hfresh⟩
  · rw [hrows]; exact h2
  · have hne : ¬ row.update_id = some k := by
      intro hr
      exact (hfresh k (by rw [← hrid]; exact hr)) h1
    rw [hrows, countRowsUid_append, countRowsUid_singleton, h2, if_neg hne]

lemma process_foldl_inv_once (c n : String) (l : List Update)
    (init : LoopState) (k : Int)
    (hJ1 : countRowsUid init.new_rows k ≤ 1)
    (hJ2 : 1 ≤ countRowsUid init.new_rows k → k ∈ init.seen) :
    countRowsUid (l.foldl (processUpdate c n) init).new_rows k ≤ 1 := by
  induction l generalizing init with
  | nil => exact hJ1
  | cons u rest ih =>
    have h := processUpdate_inv_once c n init u k hJ1 hJ2
    exact ih (processUpdate c n init u) h.1 h.2

lemma process_foldl_inv_seen (c n : String) (l : List Update)
    (init : LoopState) (k : Int)
    (h1 : k ∈ init.seen) (h2 : countRowsUid init.new_rows k = 0) :
    countRowsUid (l.foldl (processUpdate c n) init).new_rows k = 0 := by
  induction l generalizing init with
  | nil => exact h2
  | cons u rest ih =>
    have h := processUpdate_inv_seen c n init u k h1 h2
    exact ih (processUpdate c n init u) h.1 h.2

/-! ### Claims about the feedback processor -/

/-- Claim C3: replaying an update id through `process_updates` — in the same
batch, or in a later run after a row for it was persisted — leaves at most
one persisted row for that id (at most the number already persisted, and at
most one when none was); and a delivery whose id is already in the seen set
only appends an acknowledgement with no text, appending no row and sending
no message. -/
theorem claim_C3 (chat now : String) (files : FeedbackFiles)
    (updates : List Update) (k : Int) :
    countRowsUid (process_updates chat now files updates).log k
      ≤ max 1 (countRowsUid files.log k) ∧
    (∀ (st : LoopState) (u : Update) (cq : CallbackQuery) (uid : Int),
      u.update_id = some uid → u.callback_query = some cq →
      cq.chat_id = chat → uid ∈ st.seen →
      (pyStrip (cq.data.getD "")).isEmpty = false →
      ((cq.cq_id.getD "")).isEmpty = false →
      processUpdate chat now st u =
        { st with max_update_id := max st.max_update_id uid,
                  acks := st.acks ++
                    [{ callback_query_id := cq.cq_id.getD "", text := none }] }) := by
  constructor
  · simp only [process_updates]
    split
    · exact le_max_right _ _
    · rw [countRowsUid_append]
      by_cases hin : 1 ≤ countRowsUid files.log k
      · have hseen0 : k ∈ seenUpdateIds files.log :=
          (mem_seenUpdateIds_iff _ _).mpr hin
        have h0 := process_foldl_inv_seen chat now updates
          { max_update_id := files.offset - 1, seen := seenUpdateIds files.log,
            new_rows := [], acks := [], messages := [] } k hseen0 rfl
        rw [h0]
        omega
      · have h1 := process_foldl_inv_once chat now updates
          { max_update_id := files.offset - 1, seen := seenUpdateIds files.log,
            new_rows := [], acks := [], messages := [] } k
          (by simp [countRowsUid]) (by simp [countRowsUid])
        omega
  · intro st u cq uid hu hcq hchat hseen hdat hcqid
    obtain ⟨uid?, cq?⟩ := u
    have hu' : uid? = some uid := hu
    have hcq' : cq? = some cq := hcq
    subst hu'
    subst hcq'
    simp only [processUpdate]
    rw [if_neg (fun hne => hne hchat)]
    rw [if_neg (by simp [hdat, hcqid])]
    rw [if_pos (decide_eq_true hseen)]

theorem claim_C3_witness :
    countRowsUid
        (process_updates "chat" "t1"
          { log := [{ update_id := some 7, accession_number := "acc",
                      suggested_event_type := "OFFERING",
                      corrected_event_type := none, created_at := "t0" }],
            offset := 10 }
          [{ update_id := some 7,
             callback_query := some
               { cq_id := some "q1", chat_id := "chat",
                 data := some "ok:acc:OFFERING" } }]).log 7
      ≤ max 1 (countRowsUid
          [{ update_id := some 7, accession_number := "acc",
             suggested_event_type := "OFFERING",
             corrected_event_type := none, created_at := "t0" }] 7) ∧
    processUpdate "chat" "t1"
        { max_update_id := 0, seen := [7], new_rows := [], acks := [],
          messages := [] }
        { update_id := some 7,
          callback_query := some
            { cq_id := some "q1", chat_id := "chat",
              data := some "ok:acc:OFFERING" } } =
      { max_update_id := max 0 7, seen := [7], new_rows := [],
        acks := [{ callback_query_id := "q1", text := none }],
        messages := [] } := by
  have h := claim_C3 "chat" "t1"
    { log := [{ update_id := some 7, accession_number := "acc",
                suggested_event_type := "OFFERING",
                corrected_event_type := none, created_at := "t0" }],
      offset := 10 }
    [{ update_id := some 7,
       callback_query := some
         { cq_id := some "q1", chat_id := "chat",
           data := some "ok:acc:OFFERING" } }] 7
  exact ⟨h.1, h.2
    { max_update_id := 0, seen := [7], new_rows := [], acks := [],
      messages := [] }
    { update_id := some 7,
      callback_query := some
        { cq_id := some "q1", chat_id := "chat",
          data := some "ok:acc:OFFERING" } }
    { cq_id := some "q1", chat_id := "chat", data := some "ok:acc:OFFERING" }
    7 rfl rfl rfl (by decide) (by decide) (by decide)⟩

/-- Claim C4: after a run on a non-empty batch the persisted offset is
strictly greater than every update id observed in the batch, and at least
the previously loaded offset. -/
theorem claim_C4 (chat now : String) (files : FeedbackFiles)
    (updates : List Update) (h : updates ≠ []) :
    files.offset ≤ (process_updates chat now files updates).offset ∧
    ∀ u ∈ updates, ∀ uid, u.update_id = some uid →
      uid < (process_updates chat now files updates).offset := by
  simp only [process_updates]
  rw [if_neg (fun hc => h (List.isEmpty_iff.mp hc))]
  constructor
  · have hge := process_foldl_max_ge chat now updates
      { max_update_id := files.offset - 1, seen := seenUpdateIds files.log,
        new_rows := [], acks := [], messages := [] }
    dsimp only at hge
    dsimp only
    omega
  · intro u hu uid huid
    have hmem := process_foldl_max_mem chat now updates
      { max_update_id := files.offset - 1, seen := seenUpdateIds files.log,
        new_rows := [], acks := [], messages := [] } u hu uid huid
    dsimp only
    omega

theorem claim_C4_witness :
    (0 : Int) ≤ (process_updates "chat" "t1" { log := [], offset := 0 }
      [{ update_id := some 5, callback_query := none }]).offset ∧
    (5 : Int) < (process_updates "chat" "t1" { log := [], offset := 0 }
      [{ update_id := some 5, callback_query := none }]).offset := by
  have h := claim_C4 "chat" "t1" { log := [], offset := 0 }
    [{ update_id := some 5, callback_query := none }] (by simp)
  exact ⟨h.1, h.2 { update_id := some 5, callback_query := none }
    (List.mem_singleton.mpr rfl) 5 rfl⟩

/-- The accession number of the end-to-end feedback scenario. -/
def scenarioAcc : String := "0001193125-24-000123"

/-- Scenario update 1: the user presses "Wrong" on a `PREF_CALL` suggestion. -/
def scenarioWrong : Update :=
  { update_id := some 1001,
    callback_query := some
      { cq_id := some "cb1", chat_id := "12345",
        data := some ("wrong:" ++ scenarioAcc ++ ":" ++ PREF_CALL) } }

/-- Scenario update 2: the user then picks `DIV_SUSPENSION` from the
keyboard. -/
def scenarioSet : Update :=
  { update_id := some 1002,
    callback_query := some
      { cq_id := some "cb2", chat_id := "12345",
        data := some ("set:" ++ scenarioAcc ++ ":" ++ PREF_CALL ++ ":" ++
          DIV_SUSPENSION) } }

/-- First run: empty log, offset 0, batch `[scenarioWrong]`. -/
def scenarioRun1 : RunResult :=
  process_updates "12345" "t1" { log := [], offset := 0 } [scenarioWrong]

/-- Second run: persisted state of the first run, batch `[scenarioSet]`. -/
def scenarioRun2 : RunResult :=
  process_updates "12345" "t2"
    { log := scenarioRun1.log, offset := scenarioRun1.offset } [scenarioSet]

/-- Claim C7: the `wrong:...:PREF_CALL` update appends no row and sends
exactly one prompt whose keyboard lists one control per non-sentinel event
type (none of whose tokens exceeds 64 characters, in rows of width at most
3); the follow-up `set:...:DIV_SUSPENSION` update appends exactly one row
with corrected type `DIV_SUSPENSION`. -/
theorem claim_C7 :
    scenarioRun1.log = [] ∧
    scenarioRun1.messages.map (fun msg => msg.text) = ["Which event type?"] ∧
    scenarioRun1.messages.map (fun msg => msg.reply_markup)
      = [some (build_event_type_keyboard scenarioAcc PREF_CALL)] ∧
    ((build_event_type_keyboard scenarioAcc PREF_CALL).flatten.map
        (fun b => b.callback_data))
      = ALL_EVENT_TYPES.map
          (fun ev => "set:" ++ scenarioAcc ++ ":" ++ PREF_CALL ++ ":" ++ ev) ∧
    ((build_event_type_keyboard scenarioAcc PREF_CALL).flatten.map
        (fun b => b.callback_data)).all (fun cb => cb.length ≤ 64) = true ∧
    ((build_event_type_keyboard scenarioAcc PREF_CALL).map
        (fun row => row.length)).all (fun len => len ≤ 3) = true ∧
    scenarioRun2.log =
      [{ update_id := some 1002, accession_number := scenarioAcc,
         suggested_event_type := PREF_CALL,
         corrected_event_type := some DIV_SUSPENSION, created_at := "t2" }] := by
  refine ⟨by decide, by decide, by decide, by decide, by decide, by decide,
    by decide⟩

end SecFilingBot
